import Mathlib

/-!
# Shallow embedding of the `positron_webinar` analysis scripts

This file embeds the data-handling core of the repository in Lean 4 and
proves (or refutes) the specification's claims about it.

Conventions of the embedding:

* Python/pandas scalar values are modelled by `PVal`: a finite rational
  (`PVal.num q`, standing for an exactly representable float), positive
  infinity, negative infinity, or NaN.  CSV-loaded base columns hold
  finite values; NaN/±∞ arise only from arithmetic (division by zero,
  aggregation of an empty series), exactly as in NumPy/pandas.
* A pandas `Series`/column is a `List PVal`; a `DataFrame` is an ordered
  association list from column names to columns.  `df['c']` is `getCol`
  (`none` models a raised `KeyError`), `df['c'] = s` is `setCol`
  (replace-in-place if the name exists, append otherwise).
* Elementwise Series arithmetic is `zipWith` of the `PVal` operations.
  NumPy semantics for division by zero: `0/0 = NaN`, `x/0 = ±∞` for
  `x ≠ 0` — no exception is raised.
* `Series.sum` / `Series.mean` / `Series.min` / `Series.max` skip NaN
  (pandas `skipna=True` default); on an all-NaN or empty series, `sum`
  yields `0` and the others yield NaN.
* Python strings are lists of characters; Python `int` is `Nat`/`Int`
  (arbitrary precision, no overflow).
-/

namespace Positron

/-- A pandas/NumPy scalar: a finite number (modelled exactly as a
rational), `+∞`, `-∞`, or NaN. -/
inductive PVal where
  | num (q : ℚ)
  | inf
  | ninf
  | nan
deriving DecidableEq, Repr

namespace PVal

/-- Returns `true` on the non-finite sentinels NaN and `±∞` — the values float
arithmetic produces where the mathematical result is undefined or
unbounded. -/
def isUndef : PVal → Bool
  | num _ => false
  | _ => true

/-- IEEE-style addition on `PVal` (`∞ + (-∞) = NaN`). -/
def pAdd : PVal → PVal → PVal
  | num a, num b => num (a + b)
  | nan, _ => nan
  | _, nan => nan
  | inf, ninf => nan
  | ninf, inf => nan
  | inf, _ => inf
  | _, inf => inf
  | ninf, _ => ninf
  | _, ninf => ninf

/-- IEEE-style subtraction on `PVal`. -/
def pSub : PVal → PVal → PVal
  | num a, num b => num (a - b)
  | nan, _ => nan
  | _, nan => nan
  | inf, inf => nan
  | ninf, ninf => nan
  | inf, _ => inf
  | _, ninf => inf
  | ninf, _ => ninf
  | _, inf => ninf

/-- IEEE-style multiplication on `PVal` (`∞ * 0 = NaN`). -/
def pMul : PVal → PVal → PVal
  | num a, num b => num (a * b)
  | nan, _ => nan
  | _, nan => nan
  | inf, inf => inf
  | inf, ninf => ninf
  | ninf, inf => ninf
  | ninf, ninf => inf
  | inf, num b => if b > 0 then inf else if b < 0 then ninf else nan
  | num a, inf => if a > 0 then inf else if a < 0 then ninf else nan
  | ninf, num b => if b > 0 then ninf else if b < 0 then inf else nan
  | num a, ninf => if a > 0 then ninf else if a < 0 then inf else nan

/-- NumPy-style division: `0/0 = NaN`, `x/0 = ±∞` for `x ≠ 0` (a warning
is printed but no exception is raised), `∞/∞ = NaN`, `x/∞ = 0`. -/
def pDiv : PVal → PVal → PVal
  | nan, _ => nan
  | _, nan => nan
  | num a, num b =>
      if b = 0 then (if a = 0 then nan else if a > 0 then inf else ninf)
      else num (a / b)
  | inf, inf => nan
  | inf, ninf => nan
  | ninf, inf => nan
  | ninf, ninf => nan
  | num _, inf => num 0
  | num _, ninf => num 0
  | inf, num b => if b < 0 then ninf else inf
  | ninf, num b => if b < 0 then inf else ninf

/-- Binary minimum over non-NaN values (`-∞` least, `∞` greatest); NaN
absorbs, but aggregation filters NaN out before folding. -/
def pMin : PVal → PVal → PVal
  | num a, num b => num (min a b)
  | nan, _ => nan
  | _, nan => nan
  | ninf, _ => ninf
  | _, ninf => ninf
  | inf, b => b
  | a, inf => a

/-- Binary maximum over non-NaN values. -/
def pMax : PVal → PVal → PVal
  | num a, num b => num (max a b)
  | nan, _ => nan
  | _, nan => nan
  | inf, _ => inf
  | _, inf => inf
  | ninf, b => b
  | a, ninf => a

end PVal

/-- A pandas Series (one column of a DataFrame). -/
abbrev Col := List PVal

/-- A DataFrame: an ordered association list from column names to
columns. -/
abbrev DataFrame := List (String × Col)

/-- Column lookup `df[name]`: first column stored under `name`; `none` models the
`KeyError` pandas raises for a missing column. -/
def getCol (df : DataFrame) (name : String) : Option Col :=
  match df with
  | [] => none
  | (n, c) :: rest => if n = name then some c else getCol rest name

/-- Column assignment `df[name] = col`: replace the column in place if the name exists,
append it as a new last column otherwise. -/
def setCol (df : DataFrame) (name : String) (col : Col) : DataFrame :=
  match df with
  | [] => [(name, col)]
  | (n, c) :: rest =>
      if n = name then (n, col) :: rest else (n, c) :: setCol rest name col

/-- Elementwise Series arithmetic (`s * t`, `s - t`, `s / t` on aligned
columns of one frame). -/
def colZip (f : PVal → PVal → PVal) (a b : Col) : Col := List.zipWith f a b

/-- Scalar multiplication `series * scalar`. -/
def colScale (a : Col) (k : PVal) : Col := a.map (fun x => PVal.pMul x k)

/-- Pandas `Series.sum()`: NaN entries are skipped (`skipna=True`); the sum of
an empty (or all-NaN) series is `0`. -/
def colSum (c : Col) : PVal :=
  ((c.filter (fun x => x ≠ PVal.nan)).foldl PVal.pAdd (PVal.num 0))

/-- Pandas `Series.mean()`: NaN entries are skipped; the mean of an empty (or
all-NaN) series is NaN. -/
def colMean (c : Col) : PVal :=
  let vs := c.filter (fun x => x ≠ PVal.nan)
  if vs.length = 0 then PVal.nan
  else PVal.pDiv (vs.foldl PVal.pAdd (PVal.num 0)) (PVal.num vs.length)

/-- Pandas `Series.min()`: NaN entries are skipped; NaN on an empty series. -/
def colMin (c : Col) : PVal :=
  match c.filter (fun x => x ≠ PVal.nan) with
  | [] => PVal.nan
  | v :: vs => vs.foldl PVal.pMin v

/-- Pandas `Series.max()`: NaN entries are skipped; NaN on an empty series. -/
def colMax (c : Col) : PVal :=
  match c.filter (fun x => x ≠ PVal.nan) with
  | [] => PVal.nan
  | v :: vs => vs.foldl PVal.pMax v

/-! ## `statistics_utils.py` -/

/-- Result dictionary of `calculate_sales_statistics`. -/
structure SalesStats where
  total : PVal
  average : PVal
  max : PVal
  min : PVal
deriving DecidableEq, Repr

/-- Python `calculate_sales_statistics(data)`: total/average/max/min of the
`amount` column; `none` models the `KeyError` on a missing column. -/
def calculate_sales_statistics (data : DataFrame) : Option SalesStats := do
  let amount ← getCol data "amount"
  pure { total := colSum amount, average := colMean amount,
         max := colMax amount, min := colMin amount }

/-- Result dictionary of `calculate_age_statistics`. -/
structure AgeStats where
  average : PVal
  min : PVal
  max : PVal
deriving DecidableEq, Repr

/-- Python `calculate_age_statistics(data)`: average/min/max of the `age`
column. -/
def calculate_age_statistics (data : DataFrame) : Option AgeStats := do
  let age ← getCol data "age"
  pure { average := colMean age, min := colMin age, max := colMax age }

/-- Python `calculate_product_metrics(products_df)`: on a copy of the frame,
assign `revenue = quantity_sold * price`, then
`profit = revenue - quantity_sold * cost`, then
`profit_margin = (profit / revenue) * 100`, reading each column afresh at
its point of use exactly as the Python lines do.  `none` models a
`KeyError` on a missing base column. -/
def calculate_product_metrics (products_df : DataFrame) : Option DataFrame := do
  -- products_df = products_df.copy()  (a fresh value; aliasing is studied
  -- separately in the heap-passing embedding below)
  let df0 := products_df
  -- products_df['revenue'] = products_df['quantity_sold'] * products_df['price']
  let q0 ← getCol df0 "quantity_sold"
  let p0 ← getCol df0 "price"
  let df1 := setCol df0 "revenue" (colZip PVal.pMul q0 p0)
  -- products_df['profit'] = products_df['revenue'] - (products_df['quantity_sold'] * products_df['cost'])
  let r1 ← getCol df1 "revenue"
  let q1 ← getCol df1 "quantity_sold"
  let c1 ← getCol df1 "cost"
  let df2 := setCol df1 "profit" (colZip PVal.pSub r1 (colZip PVal.pMul q1 c1))
  -- products_df['profit_margin'] = (products_df['profit'] / products_df['revenue']) * 100
  let pr2 ← getCol df2 "profit"
  let r2 ← getCol df2 "revenue"
  let df3 := setCol df2 "profit_margin" (colScale (colZip PVal.pDiv pr2 r2) (PVal.num 100))
  pure df3

/-- Result dictionary of `get_summary_metrics`. -/
structure SummaryMetrics where
  total_revenue : PVal
  total_profit : PVal
  avg_margin : PVal
deriving DecidableEq, Repr

/-- Python `get_summary_metrics(products_df)`: sum of `revenue`, sum of
`profit`, mean of `profit_margin`. -/
def get_summary_metrics (products_df : DataFrame) : Option SummaryMetrics := do
  let rev ← getCol products_df "revenue"
  let prof ← getCol products_df "profit"
  let marg ← getCol products_df "profit_margin"
  pure { total_revenue := colSum rev, total_profit := colSum prof,
         avg_margin := colMean marg }

/-! ## `data_utils.py` and the customer pipelines -/

/-- Python `validate_email(email)`:
`'@' in email and '.' in email and len(email) > 5`.  Python strings are
modelled as lists of characters. -/
def validate_email (email : List Char) : Bool :=
  email.contains '@' && email.contains '.' && decide (email.length > 5)

/-- One row of a customer frame, as consumed by the validation loop. -/
structure CustomerRow where
  email : List Char
  age : ℚ
deriving DecidableEq, Repr

/-- Python `validate_customer_data(customers_df)`: the source loop —
`valid_customers = []`, then for each row append it when
`validate_email(row['email'])` holds, finally rebuild a frame from the
accumulated rows.  Translated as a left fold over the rows with an
explicit accumulator. -/
def validate_customer_data (customers_df : List CustomerRow) : List CustomerRow :=
  customers_df.foldl
    (fun valid_customers row =>
      if validate_email row.email then valid_customers ++ [row] else valid_customers)
    []

/-! ## `product_analysis.py`: top-N ranking -/

/-- Pandas `df.nlargest(n, key)` (default `keep='first'`): the first `n`
rows of the frame sorted descending by the key, ties kept in original
row order — a stable descending sort followed by truncation.  Expressed
generically over the row type and the (finite-valued) sort key. -/
def nlargest {α : Type} (n : ℕ) (key : α → ℚ) (rows : List α) : List α :=
  (rows.mergeSort (fun a b => key b ≤ key a)).take n

/-! ## Heap-passing embedding of `calculate_product_metrics`

Python passes DataFrames by reference, and `df['col'] = s` mutates the
referenced frame in place.  To make the frame/no-side-effect claim about
`calculate_product_metrics` non-vacuous, the function is also embedded
against an explicit heap of DataFrames: references are heap indices,
`products_df.copy()` allocates a fresh cell, and each column assignment
overwrites the cell the local name points at. -/

/-- The heap of live DataFrames; a Python variable holding a frame is an
index into it. -/
abbrev Heap := List DataFrame

/-- Python `calculate_product_metrics` with the heap explicit.  The argument
`r` is the caller's reference; the returned reference points at the
frame the function returns.  The first statement
`products_df = products_df.copy()` rebinds the local name to a freshly
allocated copy, so the three assignments mutate only that copy. -/
def calculate_product_metrics_st (h : Heap) (r : ℕ) : Option (Heap × ℕ) := do
  let df ← h[r]?
  -- products_df = products_df.copy(): allocate a fresh cell
  let h0 := h ++ [df]
  let r0 := h.length
  -- products_df['revenue'] = products_df['quantity_sold'] * products_df['price']
  let d0 ← h0[r0]?
  let q0 ← getCol d0 "quantity_sold"
  let p0 ← getCol d0 "price"
  let h1 := h0.set r0 (setCol d0 "revenue" (colZip PVal.pMul q0 p0))
  -- products_df['profit'] = products_df['revenue'] - (products_df['quantity_sold'] * products_df['cost'])
  let d1 ← h1[r0]?
  let r1 ← getCol d1 "revenue"
  let q1 ← getCol d1 "quantity_sold"
  let c1 ← getCol d1 "cost"
  let h2 := h1.set r0 (setCol d1 "profit" (colZip PVal.pSub r1 (colZip PVal.pMul q1 c1)))
  -- products_df['profit_margin'] = (products_df['profit'] / products_df['revenue']) * 100
  let d2 ← h2[r0]?
  let pr2 ← getCol d2 "profit"
  let r2 ← getCol d2 "revenue"
  let h3 := h2.set r0 (setCol d2 "profit_margin" (colScale (colZip PVal.pDiv pr2 r2) (PVal.num 100)))
  pure (h3, r0)

/-! ## `slow_code_examples.py`: sum of squares -/

/-- Python `sum_of_squares_slow(n)`: materialise `[x**2 for x in range(n)]`,
then `sum` it. -/
def sum_of_squares_slow (n : ℕ) : ℕ :=
  (((List.range n).map (fun x => x ^ 2))).sum

/-- Python `sum_of_squares_fast(n)`: `sum(x**2 for x in range(n))` — fold the
running total over the generator without materialising a list. -/
def sum_of_squares_fast (n : ℕ) : ℕ :=
  (List.range n).foldl (fun acc x => acc + x ^ 2) 0

/-! ## Rational-level descriptions of the derived columns -/

/-- The revenue values, `quantity_sold * price` elementwise, at the
rational level. -/
def revenueQ (qs ps : List ℚ) : List ℚ := List.zipWith (fun q p => q * p) qs ps

/-- The profit values, `revenue - quantity_sold * cost` elementwise, at
the rational level. -/
def profitQ (qs ps cs : List ℚ) : List ℚ :=
  List.zipWith (fun r x => r - x) (revenueQ qs ps)
    (List.zipWith (fun q c => q * c) qs cs)

/-- The profit-margin value `(profit / revenue) * 100` of one record:
finite unless `revenue = 0`, in which case float division yields NaN
(`profit = 0`) or `±∞`. -/
def marginPV (profit revenue : ℚ) : PVal :=
  PVal.pMul (PVal.pDiv (PVal.num profit) (PVal.num revenue)) (PVal.num 100)

/-! ## Helper lemmas -/

theorem getCol_setCol_self (df : DataFrame) (n : String) (c : Col) :
    getCol (setCol df n c) n = some c := by
  induction df with
  | nil => simp [setCol, getCol]
  | cons e rest ih =>
      obtain ⟨k, col⟩ := e
      by_cases h : k = n
      · simp [setCol, getCol, h]
      · simp [setCol, getCol, h, ih]

theorem getCol_setCol_ne (df : DataFrame) {n m : String} (h : n ≠ m) (c : Col) :
    getCol (setCol df n c) m = getCol df m := by
  induction df with
  | nil => simp [setCol, getCol, h]
  | cons e rest ih =>
      obtain ⟨k, col⟩ := e
      by_cases hk : k = n
      · subst hk
        simp [setCol, getCol, h, ih]
      · simp only [setCol, if_neg hk]
        by_cases hm : k = m
        · simp [getCol, hm]
        · simp [getCol, hm, ih]

theorem setCol_getCol_eq (df : DataFrame) (n : String) (c : Col)
    (h : getCol df n = some c) : setCol df n c = df := by
  induction df with
  | nil => simp [getCol] at h
  | cons e rest ih =>
      obtain ⟨k, col⟩ := e
      by_cases hk : k = n
      · subst hk
        simp only [getCol, if_true, eq_self_iff_true, Option.some.injEq] at h
        simp [setCol, h]
      · simp only [getCol, if_neg hk] at h
        simp [setCol, hk, ih h]

theorem colZip_map_num (g : PVal → PVal → PVal) (a b : List ℚ) :
    colZip g (a.map PVal.num) (b.map PVal.num)
      = List.zipWith (fun x y => g (PVal.num x) (PVal.num y)) a b := by
  simp [colZip, List.zipWith_map]

theorem colZip_pMul_map_num (a b : List ℚ) :
    colZip PVal.pMul (a.map PVal.num) (b.map PVal.num)
      = (List.zipWith (fun x y => x * y) a b).map PVal.num := by
  induction a generalizing b with
  | nil => simp [colZip]
  | cons x xs ih =>
      cases b with
      | nil => simp [colZip]
      | cons y ys =>
          simpa [colZip, PVal.pMul] using ih ys

theorem colZip_pSub_map_num (a b : List ℚ) :
    colZip PVal.pSub (a.map PVal.num) (b.map PVal.num)
      = (List.zipWith (fun x y => x - y) a b).map PVal.num := by
  induction a generalizing b with
  | nil => simp [colZip]
  | cons x xs ih =>
      cases b with
      | nil => simp [colZip]
      | cons y ys =>
          simpa [colZip, PVal.pSub] using ih ys

theorem colScale_colZip_pDiv_map_num (a b : List ℚ) :
    colScale (colZip PVal.pDiv (a.map PVal.num) (b.map PVal.num)) (PVal.num 100)
      = List.zipWith marginPV a b := by
  induction a generalizing b with
  | nil => simp [colZip, colScale]
  | cons x xs ih =>
      cases b with
      | nil => simp [colZip, colScale]
      | cons y ys =>
          simpa [colZip, colScale, marginPV] using ih ys

/-- Running `calculate_product_metrics` on a frame whose three base
columns exist: the result is the input frame with the three derived
columns assigned, each computed from the base columns by the fixed
dependency chain. -/
theorem product_metrics_run (df : DataFrame) (q p c : Col)
    (hq : getCol df "quantity_sold" = some q)
    (hp : getCol df "price" = some p)
    (hc : getCol df "cost" = some c) :
    calculate_product_metrics df
      = some (setCol (setCol (setCol df "revenue"
          (colZip PVal.pMul q p)) "profit"
          (colZip PVal.pSub (colZip PVal.pMul q p) (colZip PVal.pMul q c)))
          "profit_margin"
          (colScale (colZip PVal.pDiv
            (colZip PVal.pSub (colZip PVal.pMul q p) (colZip PVal.pMul q c))
            (colZip PVal.pMul q p)) (PVal.num 100))) := by
  have h1 : ("revenue" : String) ≠ "quantity_sold" := by decide
  have h2 : ("revenue" : String) ≠ "cost" := by decide
  have h3 : ("profit" : String) ≠ "revenue" := by decide
  simp [calculate_product_metrics, hq, hp, hc,
    getCol_setCol_self, getCol_setCol_ne _ h1, getCol_setCol_ne _ h2,
    getCol_setCol_ne _ h3]

theorem foldl_accum_filter (p : CustomerRow → Bool) :
    ∀ (rows acc : List CustomerRow),
      rows.foldl (fun vs row => if p row then vs ++ [row] else vs) acc
        = acc ++ rows.filter p := by
  intro rows
  induction rows with
  | nil => intro acc; simp
  | cons r rs ih =>
      intro acc
      by_cases h : p r = true
      · simp [List.foldl_cons, h, ih]
      · simp only [Bool.not_eq_true] at h
        simp [List.foldl_cons, h, ih]

theorem validate_customer_data_eq_filter (rows : List CustomerRow) :
    validate_customer_data rows = rows.filter (fun r => validate_email r.email) := by
  simpa using foldl_accum_filter (fun r => validate_email r.email) rows []

theorem filter_ne_nan_map_num (l : List ℚ) :
    (l.map PVal.num).filter (fun x => x ≠ PVal.nan) = l.map PVal.num := by
  induction l with
  | nil => rfl
  | cons a t ih => simp [ih]

theorem foldl_pAdd_map_num (l : List ℚ) (a : ℚ) :
    (l.map PVal.num).foldl PVal.pAdd (PVal.num a) = PVal.num (a + l.sum) := by
  induction l generalizing a with
  | nil => simp
  | cons x t ih => simp [PVal.pAdd, ih, add_assoc]

/-- On a column of finite values, `Series.sum` is the exact sum. -/
theorem colSum_map_num (l : List ℚ) :
    colSum (l.map PVal.num) = PVal.num l.sum := by
  rw [colSum, filter_ne_nan_map_num, foldl_pAdd_map_num, zero_add]

/-- On a nonempty column of finite values, `Series.mean` is the exact
arithmetic mean, sum divided by length. -/
theorem colMean_map_num (l : List ℚ) (h : l ≠ []) :
    colMean (l.map PVal.num) = PVal.num (l.sum / l.length) := by
  have hlen : (l.map PVal.num).length ≠ 0 := by simpa using h
  simp only [colMean, filter_ne_nan_map_num]
  rw [if_neg hlen, foldl_pAdd_map_num, zero_add]
  have hq : ((l.length : ℚ)) ≠ 0 := by simpa using h
  simp only [PVal.pDiv, List.length_map]
  rw [if_neg hq]

theorem getD_zipWith {α β γ : Type} (f : α → β → γ) (d₁ : α) (d₂ : β) (d₃ : γ) :
    ∀ (a : List α) (b : List β) (i : ℕ), i < a.length → i < b.length →
      (List.zipWith f a b).getD i d₃ = f (a.getD i d₁) (b.getD i d₂)
  | [], _, i, ha, _ => absurd ha (by simp)
  | _ :: _, [], i, _, hb => absurd hb (by simp)
  | x :: xs, y :: ys, 0, _, _ => rfl
  | x :: xs, y :: ys, (i+1), ha, hb => by
      simpa using getD_zipWith f d₁ d₂ d₃ xs ys i (by simpa using ha) (by simpa using hb)

/-- A margin over zero revenue is one of the non-finite sentinels. -/
theorem marginPV_rev_zero_isUndef (pr : ℚ) : (marginPV pr 0).isUndef = true := by
  simp only [marginPV, PVal.pDiv, if_pos rfl]
  rcases lt_trichotomy pr 0 with h | rfl | h
  · rw [if_neg h.ne, if_neg (not_lt.mpr h.le)]
    simp [PVal.pMul, PVal.isUndef, show (0 : ℚ) < 100 by norm_num]
  · simp [PVal.pMul, PVal.isUndef]
  · rw [if_neg h.ne', if_pos h]
    simp [PVal.pMul, PVal.isUndef, show (0 : ℚ) < 100 by norm_num]

/-- A margin over nonzero revenue is the exact finite value. -/
theorem marginPV_finite (pr rv : ℚ) (h : rv ≠ 0) :
    marginPV pr rv = PVal.num (pr / rv * 100) := by
  simp [marginPV, PVal.pDiv, h, PVal.pMul]

/-- Shared evaluation of `calculate_product_metrics` over a frame with
finite base columns: the three derived columns, expressed by the
rational-level formulas. -/
theorem product_metrics_cols (df : DataFrame) (qs ps cs : List ℚ)
    (hq : getCol df "quantity_sold" = some (qs.map PVal.num))
    (hp : getCol df "price" = some (ps.map PVal.num))
    (hc : getCol df "cost" = some (cs.map PVal.num)) :
    ∃ out, calculate_product_metrics df = some out
      ∧ getCol out "revenue" = some ((revenueQ qs ps).map PVal.num)
      ∧ getCol out "profit" = some ((profitQ qs ps cs).map PVal.num)
      ∧ getCol out "profit_margin"
          = some (List.zipWith marginPV (profitQ qs ps cs) (revenueQ qs ps)) := by
  rw [product_metrics_run df _ _ _ hq hp hc]
  simp only [colZip_pMul_map_num, colZip_pSub_map_num]
  refine ⟨_, rfl, ?_, ?_, ?_⟩
  · rw [getCol_setCol_ne _ (show ("profit_margin" : String) ≠ "revenue" by decide),
      getCol_setCol_ne _ (show ("profit" : String) ≠ "revenue" by decide),
      getCol_setCol_self]
    simp [revenueQ]
  · rw [getCol_setCol_ne _ (show ("profit_margin" : String) ≠ "profit" by decide),
      getCol_setCol_self]
    simp [profitQ, revenueQ]
  · rw [getCol_setCol_self, colScale_colZip_pDiv_map_num]
    simp [profitQ, revenueQ]

/-! ## Claim theorems -/

/-- Claim C3. On a frame of product records with base columns
`quantity_sold`, `price`, `cost`, `calculate_product_metrics` adds, in
the fixed dependency order, `revenue = quantity_sold * price`, then
`profit = revenue - quantity_sold * cost`, then
`profit_margin = (profit / revenue) * 100`, elementwise per record. -/
theorem product_metrics_columns (df : DataFrame) (qs ps cs : List ℚ)
    (hq : getCol df "quantity_sold" = some (qs.map PVal.num))
    (hp : getCol df "price" = some (ps.map PVal.num))
    (hc : getCol df "cost" = some (cs.map PVal.num)) :
    ∃ out, calculate_product_metrics df = some out
      ∧ getCol out "revenue" = some ((revenueQ qs ps).map PVal.num)
      ∧ getCol out "profit" = some ((profitQ qs ps cs).map PVal.num)
      ∧ getCol out "profit_margin"
          = some (List.zipWith marginPV (profitQ qs ps cs) (revenueQ qs ps)) :=
  product_metrics_cols df qs ps cs hq hp hc

/-- Witness for C3: two records, `(q,p,c) = (10,5,3)` and `(0,7,2)`;
revenues `[50, 0]`, profits `[20, 0]`, margins `[40, NaN]`. -/
theorem product_metrics_columns_witness :
    ∃ out, calculate_product_metrics
        [("quantity_sold", [PVal.num 10, PVal.num 0]),
         ("price", [PVal.num 5, PVal.num 7]),
         ("cost", [PVal.num 3, PVal.num 2])] = some out
      ∧ getCol out "revenue" = some [PVal.num 50, PVal.num 0]
      ∧ getCol out "profit" = some [PVal.num 20, PVal.num 0]
      ∧ getCol out "profit_margin" = some [PVal.num 40, PVal.nan] := by
  obtain ⟨out, h1, h2, h3, h4⟩ := product_metrics_columns
    [("quantity_sold", [PVal.num 10, PVal.num 0]),
     ("price", [PVal.num 5, PVal.num 7]),
     ("cost", [PVal.num 3, PVal.num 2])] [10, 0] [5, 7] [3, 2] rfl rfl rfl
  refine ⟨out, h1, ?_, ?_, ?_⟩
  · rw [h2]; norm_num [revenueQ]
  · rw [h3]; norm_num [profitQ, revenueQ]
  · rw [h4]; norm_num [marginPV, profitQ, revenueQ, PVal.pDiv, PVal.pMul]

/-- Claim C1, counterexample. On an empty collection the code does not
fail with a catchable `EmptyCollection` error: `calculate_age_statistics`
returns successfully (`some …`, no error channel is ever used), and the
`average` it returns is the NaN sentinel — exactly the silent NaN the
claim says is avoided. -/
theorem age_statistics_empty_no_error :
    calculate_age_statistics [("age", [])]
      = some ⟨PVal.nan, PVal.nan, PVal.nan⟩ := by
  decide

/-- Claim C1, amended. For a collection whose field column holds finite
values: when `len(R) > 0` the `average` produced by both `summarize`
call sites (`calculate_age_statistics`, `calculate_sales_statistics`)
equals the sum of the field values divided by `len(R)`; when
`len(R) == 0` the functions do **not** raise — they return normally
with NaN for `average`/`min`/`max` (and `0` for the sales `total`). -/
theorem summarize_average_spec (ages amounts : List ℚ) (dfA dfS : DataFrame)
    (hA : getCol dfA "age" = some (ages.map PVal.num))
    (hS : getCol dfS "amount" = some (amounts.map PVal.num)) :
    (ages ≠ [] → (calculate_age_statistics dfA).map AgeStats.average
        = some (PVal.num (ages.sum / ages.length))) ∧
    (amounts ≠ [] → (calculate_sales_statistics dfS).map SalesStats.average
        = some (PVal.num (amounts.sum / amounts.length))) ∧
    (ages = [] → calculate_age_statistics dfA
        = some ⟨PVal.nan, PVal.nan, PVal.nan⟩) ∧
    (amounts = [] → calculate_sales_statistics dfS
        = some ⟨PVal.num 0, PVal.nan, PVal.nan, PVal.nan⟩) := by
  refine ⟨?_, ?_, ?_, ?_⟩
  · intro h
    simp [calculate_age_statistics, hA, colMean_map_num ages h]
  · intro h
    simp [calculate_sales_statistics, hS, colMean_map_num amounts h]
  · rintro rfl
    simp [calculate_age_statistics, hA, colMean, colMin, colMax]
  · rintro rfl
    simp [calculate_sales_statistics, hS, colMean, colMin, colMax, colSum]

/-- Witness for C1 at concrete inputs: ages `[20, 30, 40]` average to
`30`, and an empty sales collection yields `total 0` and NaN
average/max/min — no error. -/
theorem summarize_average_spec_witness :
    (calculate_age_statistics
        [("age", [PVal.num 20, PVal.num 30, PVal.num 40])]).map AgeStats.average
      = some (PVal.num 30) ∧
    calculate_sales_statistics [("amount", [])]
      = some ⟨PVal.num 0, PVal.nan, PVal.nan, PVal.nan⟩ := by
  have h := summarize_average_spec [20, 30, 40] [] [("age", [PVal.num 20, PVal.num 30, PVal.num 40])]
    [("amount", [])] (by decide) (by decide)
  refine ⟨?_, h.2.2.2 rfl⟩
  have h1 := h.1 (by decide)
  have e : (([20, 30, 40] : List ℚ)).sum / ((([20, 30, 40] : List ℚ)).length : ℚ) = 30 := by
    norm_num [List.sum_cons]
  rw [e] at h1
  exact h1

/-- A stable filter of a prefix is a prefix of the stable filter:
`filter p (take n l)` is `take k (filter p l)` for some `k`. -/
theorem filter_take_exists_take {α : Type} (p : α → Bool) (l : List α) :
    ∀ n : ℕ, ∃ k, (l.take n).filter p = (l.filter p).take k := by
  induction l with
  | nil => intro n; exact ⟨0, by simp⟩
  | cons a t ih =>
      intro n
      cases n with
      | zero => exact ⟨0, by simp⟩
      | succ m =>
          obtain ⟨k, hk⟩ := ih m
          by_cases hpa : p a = true
          · exact ⟨k + 1, by simp [List.filter_cons, hpa, hk]⟩
          · refine ⟨k, ?_⟩
            simp only [Bool.not_eq_true] at hpa
            simp [List.filter_cons, hpa, hk]

/-- Stability of the descending sort underlying `nlargest`: the
elements sharing one key value come out in exactly their input order
(sorting permutes nothing within an equal-key class). -/
theorem mergeSort_filter_key_eq {α : Type} (key : α → ℚ) (rows : List α) (v : ℚ) :
    (rows.mergeSort (fun a b => key b ≤ key a)).filter (fun a => key a = v)
      = rows.filter (fun a => key a = v) := by
  have htrans : ∀ a b c : α, (fun a b => decide (key b ≤ key a)) a b
      → (fun a b => decide (key b ≤ key a)) b c
      → (fun a b => decide (key b ≤ key a)) a c := by
    intro a b c hab hbc
    simp only [decide_eq_true_eq] at hab hbc ⊢
    exact le_trans hbc hab
  have htotal : ∀ a b : α, ((fun a b => decide (key b ≤ key a)) a b
      || (fun a b => decide (key b ≤ key a)) b a) = true := by
    intro a b
    simpa using le_total (key b) (key a)
  have hall : ∀ x ∈ rows.filter (fun a => decide (key a = v)), key x = v := by
    intro x hx
    simpa using (List.mem_filter.mp hx).2
  have hpw : (rows.filter (fun a => decide (key a = v))).Pairwise
      (fun a b => (fun a b => decide (key b ≤ key a)) a b) := by
    apply List.pairwise_of_forall_mem_list
    intro a ha b hb
    simp only [decide_eq_true_eq, hall a ha, hall b hb, le_refl]
  have hsub : (rows.filter (fun a => decide (key a = v))).Sublist
      (rows.mergeSort (fun a b => key b ≤ key a)) :=
    List.sublist_mergeSort htrans htotal hpw (List.filter_sublist rows)
  have hsub2 : (rows.filter (fun a => decide (key a = v))).Sublist
      ((rows.mergeSort (fun a b => key b ≤ key a)).filter (fun a => decide (key a = v))) := by
    have := hsub.filter (fun a => decide (key a = v))
    rwa [List.filter_eq_self.mpr (by intro x hx; simpa using hall x hx)] at this
  have hlen : ((rows.mergeSort (fun a b => key b ≤ key a)).filter
      (fun a => decide (key a = v))).length
      = (rows.filter (fun a => decide (key a = v))).length :=
    ((List.mergeSort_perm rows _).filter _).length_eq
  exact (hsub2.eq_of_length hlen.symm).symm

/-- Claim C5. `top_n` (pandas `nlargest(n, key)`, default `keep='first'`)
returns exactly the `n` records with the largest key (all of them when
the collection has at most `n` records), in descending key order, with
ties kept in original input order: its length is `min n len`, it is
descending-sorted, the dropped records all have keys no larger than any
kept record, and within any single key value the kept records are an
initial segment, in order, of the like-keyed input records. -/
theorem top_n_spec {α : Type} (n : ℕ) (key : α → ℚ) (rows : List α) :
    (nlargest n key rows).length = min n rows.length
    ∧ (nlargest n key rows).Pairwise (fun a b => key b ≤ key a)
    ∧ (∃ rest, ((nlargest n key rows) ++ rest).Perm rows
        ∧ ∀ x ∈ nlargest n key rows, ∀ y ∈ rest, key y ≤ key x)
    ∧ (∀ v : ℚ, ∃ k, (nlargest n key rows).filter (fun a => key a = v)
        = (rows.filter (fun a => key a = v)).take k) := by
  have htrans : ∀ a b c : α, (fun a b => decide (key b ≤ key a)) a b
      → (fun a b => decide (key b ≤ key a)) b c
      → (fun a b => decide (key b ≤ key a)) a c := by
    intro a b c hab hbc
    simp only [decide_eq_true_eq] at hab hbc ⊢
    exact le_trans hbc hab
  have htotal : ∀ a b : α, ((fun a b => decide (key b ≤ key a)) a b
      || (fun a b => decide (key b ≤ key a)) b a) = true := by
    intro a b
    simpa using le_total (key b) (key a)
  have hsorted := List.sorted_mergeSort htrans htotal rows
  refine ⟨?_, ?_, ?_, ?_⟩
  · simp [nlargest]
  · have hsorted2 := List.Pairwise.sublist (List.take_sublist n _) hsorted
    exact hsorted2.imp (fun h => of_decide_eq_true h)
  · refine ⟨(rows.mergeSort (fun a b => key b ≤ key a)).drop n, ?_, ?_⟩
    · show ((rows.mergeSort (fun a b => key b ≤ key a)).take n
          ++ (rows.mergeSort (fun a b => key b ≤ key a)).drop n).Perm rows
      rw [List.take_append_drop]
      exact List.mergeSort_perm rows _
    · intro x hx y hy
      have hs2 := hsorted
      rw [← List.take_append_drop n (rows.mergeSort (fun a b => key b ≤ key a))] at hs2
      have h3 := (List.pairwise_append.mp hs2).2.2
      exact of_decide_eq_true (h3 x hx y hy)
  · intro v
    obtain ⟨k, hk⟩ := filter_take_exists_take (fun a => decide (key a = v))
      (rows.mergeSort (fun a b => key b ≤ key a)) n
    refine ⟨k, ?_⟩
    show ((rows.mergeSort (fun a b => key b ≤ key a)).take n).filter _ = _
    rw [hk, mergeSort_filter_key_eq]

/-- Witness for C5, on the claim's own example: 7 records with profit
values `[10,50,5,80,20,80,30]` and `n = 5` give a ranking of exactly
five records. -/
theorem top_n_spec_witness :
    (nlargest 5 Prod.snd
      [((0 : ℕ), (10 : ℚ)), (1, 50), (2, 5), (3, 80), (4, 20), (5, 80), (6, 30)]).length
      = 5 := by
  have h := (top_n_spec 5 Prod.snd
    [((0 : ℕ), (10 : ℚ)), (1, 50), (2, 5), (3, 80), (4, 20), (5, 80), (6, 30)]).1
  exact h.trans (by norm_num)

/-- Claim C10. The loop-free variant `sum_of_squares_fast(n)` returns the
same integer as the list-materialising variant `sum_of_squares_slow(n)`,
and both equal `∑_{x<n} x²`. -/
theorem sum_of_squares_equiv (n : ℕ) :
    sum_of_squares_fast n = sum_of_squares_slow n ∧
    sum_of_squares_slow n = ∑ x ∈ Finset.range n, x ^ 2 := by
  constructor
  · have key : ∀ (l : List ℕ) (a : ℕ),
        l.foldl (fun acc x => acc + x ^ 2) a = a + (l.map (fun x => x ^ 2)).sum := by
      intro l
      induction l with
      | nil => intro a; simp
      | cons x xs ih => intro a; simp [ih, Nat.add_assoc]
    simp [sum_of_squares_fast, sum_of_squares_slow, key]
  · induction n with
    | zero => simp [sum_of_squares_slow]
    | succ m ih =>
        simp [sum_of_squares_slow, List.range_succ, Finset.sum_range_succ] at ih ⊢
        omega

/-- Claim C6. `is_valid_contact` (= `validate_email`) returns `true` iff
the string contains an `@`, contains a `.`, and has length strictly
greater than 5; in particular it accepts `"a@b.co"` and rejects
`"a@b"` and `"noatsign.com"`. -/
theorem validate_email_spec :
    (∀ s : List Char,
        validate_email s = true ↔ ('@' ∈ s ∧ '.' ∈ s ∧ 5 < s.length)) ∧
    validate_email "a@b.co".toList = true ∧
    validate_email "a@b".toList = false ∧
    validate_email "noatsign.com".toList = false := by
  refine ⟨fun s => ?_, by decide, by decide, by decide⟩
  simp [validate_email, List.contains_iff_exists_mem_beq, beq_iff_eq, and_assoc]

/-- Claim C2. On a frame of product records with finite base columns (of
one common length), `calculate_product_metrics` never raises: it
returns a frame in which every record with `revenue == 0` carries a
non-finite sentinel (NaN or `±∞`) as its `profit_margin` — in the
motivating `quantity_sold == 0` case that sentinel is exactly NaN —
while every record with nonzero revenue gets the ordinary finite margin
`(profit / revenue) * 100`. -/
theorem zero_revenue_margin_sentinel (df : DataFrame) (qs ps cs : List ℚ)
    (hlp : ps.length = qs.length) (hlc : cs.length = qs.length)
    (hq : getCol df "quantity_sold" = some (qs.map PVal.num))
    (hp : getCol df "price" = some (ps.map PVal.num))
    (hc : getCol df "cost" = some (cs.map PVal.num)) :
    ∃ out margins,
      calculate_product_metrics df = some out
      ∧ getCol out "profit_margin" = some margins
      ∧ margins.length = qs.length
      ∧ ∀ i, i < qs.length →
          ((qs.getD i 0 * ps.getD i 0 = 0 →
              (margins.getD i (PVal.num 0)).isUndef = true)
           ∧ (qs.getD i 0 = 0 → margins.getD i (PVal.num 0) = PVal.nan)
           ∧ (qs.getD i 0 * ps.getD i 0 ≠ 0 →
              margins.getD i (PVal.num 0)
                = PVal.num ((qs.getD i 0 * ps.getD i 0
                    - qs.getD i 0 * cs.getD i 0)
                    / (qs.getD i 0 * ps.getD i 0) * 100))) := by
  obtain ⟨out, h1, -, -, h4⟩ := product_metrics_cols df qs ps cs hq hp hc
  have lrev : (revenueQ qs ps).length = qs.length := by
    simp [revenueQ, hlp]
  have lqc : (List.zipWith (fun q c => q * c) qs cs).length = qs.length := by
    simp [hlc]
  have lprof : (profitQ qs ps cs).length = qs.length := by
    simp [profitQ, lrev, lqc]
  refine ⟨out, _, h1, h4, by simp [lprof, lrev], ?_⟩
  intro i hi
  have hrev_i : (revenueQ qs ps).getD i 0 = qs.getD i 0 * ps.getD i 0 := by
    exact getD_zipWith _ 0 0 0 qs ps i hi (by omega)
  have hqc_i : (List.zipWith (fun q c => q * c) qs cs).getD i 0
      = qs.getD i 0 * cs.getD i 0 := by
    exact getD_zipWith _ 0 0 0 qs cs i hi (by omega)
  have hprof_i : (profitQ qs ps cs).getD i 0
      = qs.getD i 0 * ps.getD i 0 - qs.getD i 0 * cs.getD i 0 := by
    rw [profitQ]
    rw [getD_zipWith _ 0 0 0 _ _ i (by omega) (by omega)]
    rw [hrev_i, hqc_i]
  have hm_i : (List.zipWith marginPV (profitQ qs ps cs) (revenueQ qs ps)).getD i
      (PVal.num 0)
      = marginPV ((profitQ qs ps cs).getD i 0) ((revenueQ qs ps).getD i 0) := by
    exact getD_zipWith _ 0 0 _ _ _ i (by omega) (by omega)
  rw [hm_i, hprof_i, hrev_i]
  refine ⟨?_, ?_, ?_⟩
  · intro h0
    rw [h0]
    exact marginPV_rev_zero_isUndef _
  · intro h0
    rw [h0]
    norm_num [marginPV, PVal.pDiv, PVal.pMul]
  · intro h0
    exact marginPV_finite _ _ h0

/-- Witness for C2 at `(q,p,c)` rows `(0,5,1)` and `(2,3,1)`: the
zero-quantity record's margin is NaN, the other record's margin is the
finite `(6-2)/6*100 = 200/3`; the whole computation returns normally. -/
theorem zero_revenue_margin_sentinel_witness :
    ∃ out margins,
      calculate_product_metrics
        [("quantity_sold", [PVal.num 0, PVal.num 2]),
         ("price", [PVal.num 5, PVal.num 3]),
         ("cost", [PVal.num 1, PVal.num 1])] = some out
      ∧ getCol out "profit_margin" = some margins
      ∧ margins.length = 2
      ∧ margins.getD 0 (PVal.num 0) = PVal.nan
      ∧ (margins.getD 0 (PVal.num 0)).isUndef = true
      ∧ margins.getD 1 (PVal.num 0) = PVal.num (200 / 3) := by
  obtain ⟨out, margins, h1, h2, h3, h5⟩ := zero_revenue_margin_sentinel
    [("quantity_sold", [PVal.num 0, PVal.num 2]),
     ("price", [PVal.num 5, PVal.num 3]),
     ("cost", [PVal.num 1, PVal.num 1])] [0, 2] [5, 3] [1, 1] rfl rfl rfl rfl rfl
  have e0 := (h5 0 (by norm_num)).2.1 (by norm_num)
  have e0u := (h5 0 (by norm_num)).1 (by norm_num)
  have e1 := (h5 1 (by norm_num)).2.2 (by norm_num)
  refine ⟨out, margins, h1, h2, by simpa using h3, by simpa using e0,
    by simpa using e0u, ?_⟩
  have : ((([0, 2] : List ℚ)).getD 1 0 * (([5, 3] : List ℚ)).getD 1 0
      - (([0, 2] : List ℚ)).getD 1 0 * (([1, 1] : List ℚ)).getD 1 0)
      / ((([0, 2] : List ℚ)).getD 1 0 * (([5, 3] : List ℚ)).getD 1 0) * 100
      = (200 / 3 : ℚ) := by norm_num
  rw [this] at e1
  exact e1

/-- Claim C4. `summarize_category` (= `get_summary_metrics`) returns the
sum of `revenue`, the sum of `profit`, and — for `avg_margin` — the
arithmetic mean of the per-record `profit_margin` values
(average-of-margins): for records with revenues `[100, 50]` and profits
`[50, 10]` (margins `[50, 20]`) it reports `avg_margin = 35`, not the
margin-of-totals `60/150*100 = 40`. -/
theorem summary_metrics_spec (df : DataFrame) (revs profs margs : List ℚ)
    (hr : getCol df "revenue" = some (revs.map PVal.num))
    (hp : getCol df "profit" = some (profs.map PVal.num))
    (hm : getCol df "profit_margin" = some (margs.map PVal.num))
    (hne : margs ≠ []) :
    get_summary_metrics df
      = some ⟨PVal.num revs.sum, PVal.num profs.sum,
          PVal.num (margs.sum / margs.length)⟩
    ∧ get_summary_metrics
        [("revenue", [PVal.num 100, PVal.num 50]),
         ("profit", [PVal.num 50, PVal.num 10]),
         ("profit_margin", [PVal.num 50, PVal.num 20])]
      = some ⟨PVal.num 150, PVal.num 60, PVal.num 35⟩
    ∧ (35 : ℚ) ≠ 60 / 150 * 100 := by
  refine ⟨?_, ?_, by norm_num⟩
  · simp [get_summary_metrics, hr, hp, hm, colSum_map_num, colMean_map_num _ hne]
  · show some (SummaryMetrics.mk (colSum ((([100, 50] : List ℚ)).map PVal.num))
        (colSum ((([50, 10] : List ℚ)).map PVal.num))
        (colMean ((([50, 20] : List ℚ)).map PVal.num)))
      = some ⟨PVal.num 150, PVal.num 60, PVal.num 35⟩
    rw [colSum_map_num, colSum_map_num, colMean_map_num _ (by simp)]
    norm_num [List.sum_cons]

/-- Witness for C4: revenues `[1,2,3]`, profits `[1,1,1]`, margins
`[10,20,60]` summarise to totals `6`, `3` and average margin `30`. -/
theorem summary_metrics_spec_witness :
    get_summary_metrics
      [("revenue", [PVal.num 1, PVal.num 2, PVal.num 3]),
       ("profit", [PVal.num 1, PVal.num 1, PVal.num 1]),
       ("profit_margin", [PVal.num 10, PVal.num 20, PVal.num 60])]
      = some ⟨PVal.num 6, PVal.num 3, PVal.num 30⟩ := by
  have h := (summary_metrics_spec
    [("revenue", [PVal.num 1, PVal.num 2, PVal.num 3]),
     ("profit", [PVal.num 1, PVal.num 1, PVal.num 1]),
     ("profit_margin", [PVal.num 10, PVal.num 20, PVal.num 60])]
    [1, 2, 3] [1, 1, 1] [10, 20, 60] rfl rfl rfl (by simp)).1
  have e1 : (([1, 2, 3] : List ℚ)).sum = 6 := by norm_num
  have e2 : (([1, 1, 1] : List ℚ)).sum = 3 := by norm_num
  have e3 : (([10, 20, 60] : List ℚ)).sum / ((([10, 20, 60] : List ℚ)).length : ℚ)
      = 30 := by norm_num
  rw [e1, e2, e3] at h
  exact h

/-- Claim C8. `calculate_product_metrics` is idempotent: whenever it
succeeds, running it again on its own output changes nothing, because
each derived column is recomputed from the untouched base columns
`quantity_sold`, `price`, `cost` and overwrites the existing derived
column with the same values. -/
theorem product_metrics_idempotent (df out : DataFrame)
    (h : calculate_product_metrics df = some out) :
    calculate_product_metrics out = some out := by
  -- invert the successful run on `df`
  have hq : ∃ q, getCol df "quantity_sold" = some q := by
    cases hx : getCol df "quantity_sold" with
    | none => simp [calculate_product_metrics, hx] at h
    | some q => exact ⟨q, rfl⟩
  obtain ⟨q, hq⟩ := hq
  have hp : ∃ p, getCol df "price" = some p := by
    cases hx : getCol df "price" with
    | none => simp [calculate_product_metrics, hq, hx] at h
    | some p => exact ⟨p, rfl⟩
  obtain ⟨p, hp⟩ := hp
  have hc : ∃ c, getCol df "cost" = some c := by
    cases hx : getCol df "cost" with
    | none =>
        rw [calculate_product_metrics] at h
        simp [hq, hp, hx,
          getCol_setCol_self,
          getCol_setCol_ne _ (show ("revenue" : String) ≠ "quantity_sold" by decide),
          getCol_setCol_ne _ (show ("revenue" : String) ≠ "cost" by decide)] at h
    | some c => exact ⟨c, rfl⟩
  obtain ⟨c, hc⟩ := hc
  have hrun := product_metrics_run df q p c hq hp hc
  rw [hrun] at h
  injection h with hout
  -- the base columns are untouched in the output
  have hq' : getCol out "quantity_sold" = some q := by
    rw [← hout,
      getCol_setCol_ne _ (show ("profit_margin" : String) ≠ "quantity_sold" by decide),
      getCol_setCol_ne _ (show ("profit" : String) ≠ "quantity_sold" by decide),
      getCol_setCol_ne _ (show ("revenue" : String) ≠ "quantity_sold" by decide), hq]
  have hp' : getCol out "price" = some p := by
    rw [← hout,
      getCol_setCol_ne _ (show ("profit_margin" : String) ≠ "price" by decide),
      getCol_setCol_ne _ (show ("profit" : String) ≠ "price" by decide),
      getCol_setCol_ne _ (show ("revenue" : String) ≠ "price" by decide), hp]
  have hc' : getCol out "cost" = some c := by
    rw [← hout,
      getCol_setCol_ne _ (show ("profit_margin" : String) ≠ "cost" by decide),
      getCol_setCol_ne _ (show ("profit" : String) ≠ "cost" by decide),
      getCol_setCol_ne _ (show ("revenue" : String) ≠ "cost" by decide), hc]
  -- the derived columns of the output already hold the recomputed values
  have hrev' : getCol out "revenue" = some (colZip PVal.pMul q p) := by
    rw [← hout,
      getCol_setCol_ne _ (show ("profit_margin" : String) ≠ "revenue" by decide),
      getCol_setCol_ne _ (show ("profit" : String) ≠ "revenue" by decide),
      getCol_setCol_self]
  have hprof' : getCol out "profit"
      = some (colZip PVal.pSub (colZip PVal.pMul q p) (colZip PVal.pMul q c)) := by
    rw [← hout,
      getCol_setCol_ne _ (show ("profit_margin" : String) ≠ "profit" by decide),
      getCol_setCol_self]
  have hmarg' : getCol out "profit_margin"
      = some (colScale (colZip PVal.pDiv
          (colZip PVal.pSub (colZip PVal.pMul q p) (colZip PVal.pMul q c))
          (colZip PVal.pMul q p)) (PVal.num 100)) := by
    rw [← hout, getCol_setCol_self]
  rw [product_metrics_run out q p c hq' hp' hc']
  rw [setCol_getCol_eq _ _ _ hrev', setCol_getCol_eq _ _ _ hprof',
    setCol_getCol_eq _ _ _ hmarg']

/-- Witness for C8: on the one-record frame `(q,p,c) = (2,5,3)` the
computation succeeds, and running it again on its output reproduces
that output exactly. -/
theorem product_metrics_idempotent_witness :
    ∃ out, calculate_product_metrics
        [("quantity_sold", [PVal.num 2]), ("price", [PVal.num 5]),
         ("cost", [PVal.num 3])] = some out
      ∧ calculate_product_metrics out = some out := by
  obtain ⟨out, h1, -, -, -⟩ := product_metrics_cols
    [("quantity_sold", [PVal.num 2]), ("price", [PVal.num 5]), ("cost", [PVal.num 3])]
    [2] [5] [3] rfl rfl rfl
  exact ⟨out, h1, product_metrics_idempotent _ _ h1⟩

/-- Evaluation of the heap-passing embedding on a valid reference whose
frame has the three base columns: it allocates one fresh cell holding
the fully derived frame and returns a reference to it. -/
theorem product_metrics_st_run (h : Heap) (r : ℕ) (df : DataFrame) (q p c : Col)
    (hdf : h[r]? = some df)
    (hq : getCol df "quantity_sold" = some q)
    (hp : getCol df "price" = some p)
    (hc : getCol df "cost" = some c) :
    calculate_product_metrics_st h r
      = some ((h ++ [df]).set h.length
          (setCol (setCol (setCol df "revenue"
            (colZip PVal.pMul q p)) "profit"
            (colZip PVal.pSub (colZip PVal.pMul q p) (colZip PVal.pMul q c)))
            "profit_margin"
            (colScale (colZip PVal.pDiv
              (colZip PVal.pSub (colZip PVal.pMul q p) (colZip PVal.pMul q c))
              (colZip PVal.pMul q p)) (PVal.num 100))), h.length) := by
  have hlt : h.length < (h ++ [df]).length := by simp
  simp only [calculate_product_metrics_st, hdf, Option.bind_eq_bind, Option.some_bind,
    Option.pure_def, List.getElem?_concat_length, List.getElem?_set_self hlt,
    List.set_set, hq, hp, hc,
    getCol_setCol_self,
    getCol_setCol_ne _ (show ("revenue" : String) ≠ "quantity_sold" by decide),
    getCol_setCol_ne _ (show ("revenue" : String) ≠ "cost" by decide),
    getCol_setCol_ne _ (show ("profit" : String) ≠ "revenue" by decide)]

/-- Inversion of a successful run of the heap-passing embedding. -/
theorem product_metrics_st_inv (h : Heap) (r : ℕ) (hs : Heap) (rs : ℕ)
    (hrun : calculate_product_metrics_st h r = some (hs, rs)) :
    ∃ df q p c, h[r]? = some df
      ∧ getCol df "quantity_sold" = some q
      ∧ getCol df "price" = some p
      ∧ getCol df "cost" = some c := by
  have hlt : ∀ d : DataFrame, h.length < (h ++ [d]).length := by simp
  cases hdf : h[r]? with
  | none => simp [calculate_product_metrics_st, hdf] at hrun
  | some df =>
      cases hq : getCol df "quantity_sold" with
      | none =>
          simp [calculate_product_metrics_st, hdf, hq,
            List.getElem?_concat_length] at hrun
      | some q =>
          cases hp : getCol df "price" with
          | none =>
              simp [calculate_product_metrics_st, hdf, hq, hp,
                List.getElem?_concat_length] at hrun
          | some p =>
              cases hc : getCol df "cost" with
              | none =>
                  simp [calculate_product_metrics_st, hdf, hq, hp, hc,
                    List.getElem?_concat_length, List.getElem?_set_self (hlt df),
                    getCol_setCol_ne _
                      (show ("revenue" : String) ≠ "quantity_sold" by decide),
                    getCol_setCol_ne _
                      (show ("revenue" : String) ≠ "cost" by decide),
                    getCol_setCol_self] at hrun
              | some c => exact ⟨df, q, p, c, rfl, hq, hp, hc⟩

/-- Claim C9. `calculate_product_metrics` leaves its argument unchanged:
in the heap-passing embedding (where Python's aliasing of DataFrames and
in-place column assignment are explicit) a successful call mutates only
the cell freshly allocated by `products_df.copy()` — every pre-existing
heap cell, in particular the caller's frame, is untouched — and the
returned reference holds exactly the pure function's result. -/
theorem product_metrics_pure_frame (h : Heap) (r : ℕ) (hs : Heap) (rs : ℕ)
    (hrun : calculate_product_metrics_st h r = some (hs, rs)) :
    (∀ i, i < h.length → hs[i]? = h[i]?)
    ∧ hs[r]? = h[r]?
    ∧ (h[r]?).bind calculate_product_metrics = hs[rs]? := by
  obtain ⟨df, q, p, c, hdf, hq, hp, hc⟩ := product_metrics_st_inv h r hs rs hrun
  rw [product_metrics_st_run h r df q p c hdf hq hp hc] at hrun
  injection hrun with hpair
  injection hpair with hh hr
  have hframe : ∀ i, i < h.length → hs[i]? = h[i]? := by
    intro i hi
    rw [← hh, List.getElem?_set_ne (by omega), List.getElem?_append_left hi]
  have hrlt : r < h.length := by
    by_contra hle
    rw [List.getElem?_eq_none (by omega)] at hdf
    exact Option.noConfusion hdf
  refine ⟨hframe, hframe r hrlt, ?_⟩
  rw [hdf, Option.some_bind, ← hh, ← hr,
    List.getElem?_set_self (by simp),
    product_metrics_run df q p c hq hp hc]

/-- Witness for C9: a one-cell heap holding the frame
`(q,p,c) = (2,5,3)`; after the call the caller's cell still holds the
original frame. -/
theorem product_metrics_pure_frame_witness :
    ∃ hs rs, calculate_product_metrics_st
        [[("quantity_sold", [PVal.num 2]), ("price", [PVal.num 5]),
          ("cost", [PVal.num 3])]] 0 = some (hs, rs)
      ∧ hs[0]? = some [("quantity_sold", [PVal.num 2]), ("price", [PVal.num 5]),
          ("cost", [PVal.num 3])] := by
  have hrun := product_metrics_st_run
    [[("quantity_sold", [PVal.num 2]), ("price", [PVal.num 5]), ("cost", [PVal.num 3])]]
    0 [("quantity_sold", [PVal.num 2]), ("price", [PVal.num 5]), ("cost", [PVal.num 3])]
    [PVal.num 2] [PVal.num 5] [PVal.num 3] rfl rfl rfl rfl
  refine ⟨_, _, hrun, ?_⟩
  have hfr := product_metrics_pure_frame _ 0 _ _ hrun
  exact (hfr.2.1).trans rfl

/-- Claim C7. `filter_valid_records` (= `validate_customer_data`) keeps
exactly the records whose contact field passes the validator, preserves
their relative input order (it yields a sublist of the input), and
returns an empty collection when the input is empty or when every
record fails validation; the embedding is a pure function, so the input
collection itself is untouched. -/
theorem validate_customer_data_spec (rows : List CustomerRow) :
    (validate_customer_data rows).Sublist rows ∧
    (∀ r, r ∈ validate_customer_data rows ↔
        (r ∈ rows ∧ validate_email r.email = true)) ∧
    (rows = [] → validate_customer_data rows = []) ∧
    ((∀ r ∈ rows, validate_email r.email = false) →
        validate_customer_data rows = []) := by
  rw [validate_customer_data_eq_filter]
  refine ⟨List.filter_sublist rows, fun r => List.mem_filter, ?_, ?_⟩
  · rintro rfl; simp
  · intro hall
    rw [List.filter_eq_nil_iff]
    intro a ha
    simp [hall a ha]

/-- Witness for C7 at concrete inputs: one passing and one failing
record; the failing-record collection filters to empty. -/
theorem validate_customer_data_spec_witness :
    validate_customer_data [⟨"bad".toList, 40⟩] = [] ∧
    (⟨"ab@cd.ef".toList, 30⟩ : CustomerRow) ∈
      validate_customer_data [⟨"ab@cd.ef".toList, 30⟩, ⟨"bad".toList, 40⟩] := by
  constructor
  · exact (validate_customer_data_spec [⟨"bad".toList, 40⟩]).2.2.2 (by decide)
  · exact ((validate_customer_data_spec
      [⟨"ab@cd.ef".toList, 30⟩, ⟨"bad".toList, 40⟩]).2.1 _).mpr (by decide)

end Positron
